import Mathlib

/-!
Verification of the LingoTax RAG ingestion/retrieval backend.

Shallow embedding of the core modules of the backend:
  * `src/backend/rag/chunker.py` — `chunk_document`
  * `src/backend/rag/highlightExtractor.py` — `FORM_1040_FIELDS`, `find_field_location`
  * `src/backend/rag/embedder.py` — tenacity retry wrapper around the embedding calls
  * `src/backend/routers/documents.py` — `ingest_document`, `save_edited_pdf`,
    `_run_ingestion_pipeline`
  * `src/backend/rag/chain.py` — `stream_document_chat`, `stream_general_tax_question`

External collaborators (pdfplumber, the Gemini embedding service, the LLM, the
text splitter) are modelled as parameters: the splitter as a `String → List String`
function, each external call as an `Except`-valued outcome supplied by the
environment.  Machine floats never enter any verified computation, so embedding
vectors are carried as opaque payloads (`List Int`).
-/

set_option maxHeartbeats 1000000

namespace LingoTax

/-! ## Python string primitives

`str.lower` and `str.strip` are modelled on character lists (the sources only
ever apply them to ASCII data), so that every definition reduces inside the
kernel. -/

/-- Python `str.lower` on one character (ASCII range, which is all the
sources use). -/
def pyLowerChar (c : Char) : Char :=
  if 'A' ≤ c ∧ c ≤ 'Z' then Char.ofNat (c.toNat + 32) else c

/-- Python `str.lower`. -/
def pyLower (l : List Char) : List Char :=
  l.map pyLowerChar

/-- The whitespace class Python `str.strip` removes. -/
def pyIsSpace (c : Char) : Bool :=
  c == ' ' || c == '\t' || c == '\n' || c == '\r' || c == '\x0b' || c == '\x0c'

/-- Python `str.strip` on a character list. -/
def pyStripChars (l : List Char) : List Char :=
  ((l.dropWhile pyIsSpace).reverse.dropWhile pyIsSpace).reverse

/-- Python `str.strip`. -/
def pyStrip (s : String) : String :=
  ⟨pyStripChars s.toList⟩

/-! ## Chunker (`src/backend/rag/chunker.py`) -/

/-- A page as produced by `pdf_service.extract_pages`: every emitted dict has
the keys `page`, `text` and `fields`. -/
structure Page where
  page : Nat
  text : String
  fields : List (String × String)
deriving Repr, DecidableEq

/-- The `metadata` dict attached to a chunk: source page number and the
best-effort form-field map of the page. -/
structure ChunkMeta where
  page : Nat
  form_fields : List (String × String)
deriving Repr, DecidableEq

/-- The `Chunk` dataclass of `chunker.py`. -/
structure Chunk where
  text : String
  index : Nat
  metadata : ChunkMeta
deriving Repr, DecidableEq

/-- The page loop of `chunk_document`, with the running `index` made explicit.
`split` stands for `RecursiveCharacterTextSplitter.split_text` (an external
library call).  The text of each page is stripped; a page whose stripped text is
empty is skipped (`if not text: continue`); otherwise every split of the
stripped text becomes one chunk and the index advances once per chunk. -/
def chunkPagesFrom (split : String → List String) : List Page → Nat → List Chunk
  | [], _ => []
  | p :: rest, index =>
    let t := pyStrip p.text
    if t = "" then
      chunkPagesFrom split rest index
    else
      let splits := split t
      splits.enum.map
        (fun st =>
          { text := st.2, index := index + st.1,
            metadata := { page := p.page, form_fields := p.fields } })
        ++ chunkPagesFrom split rest (index + splits.length)

/-- Model of `chunk_document(pages)` from `chunker.py` (chunk size / overlap live inside
the external splitter `split`). -/
def chunk_document (split : String → List String) (pages : List Page) : List Chunk :=
  chunkPagesFrom split pages 0

/-! ## Field locator (`src/backend/rag/highlightExtractor.py`) -/

/-- One value of the `FORM_1040_FIELDS` dict. -/
structure FieldInfo where
  page : Nat
  bbox : List Nat
  label : String
deriving Repr, DecidableEq

/-- The result dict `find_field_location` returns on a hit. -/
structure FieldLoc where
  page : Nat
  bbox : List Nat
  label : String
  method : String
deriving Repr, DecidableEq

/-- Python substring test at one position: the needle matches the front of
the haystack. -/
def matchHere : List Char → List Char → Bool
  | [], _ => true
  | _ :: _, [] => false
  | a :: as, b :: bs => a == b && matchHere as bs

/-- The Python test `needle in hay` (substring containment) on character lists. -/
def occursIn (needle : List Char) : List Char → Bool
  | [] => matchHere needle []
  | b :: bs => matchHere needle (b :: bs) || occursIn needle bs

/-- The Python test `needle in hay` on strings. -/
def strContains (hay needle : String) : Bool :=
  occursIn needle.toList hay.toList


/-- The `FORM_1040_FIELDS` dict of `highlightExtractor.py`, kept in the
insertion order of the source (Python dicts iterate in insertion order). -/
def FORM_1040_FIELDS : List (String × FieldInfo) :=
  [ ("first name", ⟨1, [32, 126, 282, 140], "Your first name and middle initial"⟩),
    ("name", ⟨1, [32, 126, 282, 140], "Your first name and middle initial"⟩),
    ("last name", ⟨1, [282, 126, 430, 140], "Last name"⟩),
    ("ssn", ⟨1, [430, 126, 580, 140], "Your social security number"⟩),
    ("social security", ⟨1, [430, 126, 580, 140], "Your social security number"⟩),
    ("social security number", ⟨1, [430, 126, 580, 140], "Your social security number"⟩),
    ("spouse name", ⟨1, [32, 140, 282, 155], "Spouse\x27s first name and middle initial (if joint return)"⟩),
    ("spouse ssn", ⟨1, [430, 140, 580, 155], "Spouse\x27s social security number"⟩),
    ("address", ⟨1, [32, 157, 395, 172], "Home address (number and street)"⟩),
    ("home address", ⟨1, [32, 157, 395, 172], "Home address (number and street)"⟩),
    ("city", ⟨1, [32, 175, 250, 190], "City, town, or post office"⟩),
    ("state", ⟨1, [335, 175, 395, 190], "State"⟩),
    ("zip", ⟨1, [400, 175, 470, 190], "ZIP code"⟩),
    ("zip code", ⟨1, [400, 175, 470, 190], "ZIP code"⟩),
    ("filing status", ⟨1, [32, 215, 560, 265], "Filing Status"⟩),
    ("single", ⟨1, [108, 218, 280, 230], "Filing Status — Single"⟩),
    ("married filing jointly", ⟨1, [108, 230, 380, 242], "Filing Status — Married filing jointly"⟩),
    ("dependents", ⟨1, [32, 325, 580, 400], "Dependents section"⟩),
    ("wages", ⟨1, [400, 415, 580, 428], "Line 1a — Total amount from Form(s) W-2, box 1"⟩),
    ("w-2", ⟨1, [400, 415, 580, 428], "Line 1a — Wages from W-2"⟩),
    ("interest", ⟨1, [400, 465, 580, 478], "Line 2b — Taxable interest"⟩),
    ("dividends", ⟨1, [400, 488, 580, 500], "Line 3b — Ordinary dividends"⟩),
    ("ira", ⟨1, [400, 500, 580, 513], "Line 4b — IRA distributions (taxable amount)"⟩),
    ("adjusted gross income", ⟨1, [400, 555, 580, 568], "Line 11 — Adjusted gross income"⟩),
    ("agi", ⟨1, [400, 555, 580, 568], "Line 11 — Adjusted gross income"⟩),
    ("standard deduction", ⟨1, [400, 572, 580, 585], "Line 12 — Standard deduction or itemized deductions"⟩),
    ("deduction", ⟨1, [400, 572, 580, 585], "Line 12 — Standard deduction or itemized deductions"⟩),
    ("taxable income", ⟨1, [400, 600, 580, 613], "Line 15 — Taxable income"⟩),
    ("tax", ⟨2, [400, 65, 580, 78], "Line 16 — Tax"⟩),
    ("child tax credit", ⟨2, [400, 105, 580, 118], "Line 19 — Child tax credit / other dependent credit"⟩),
    ("total tax", ⟨2, [400, 178, 580, 191], "Line 24 — Total tax"⟩),
    ("withholding", ⟨2, [400, 205, 580, 218], "Line 25d — Federal income tax withheld"⟩),
    ("federal tax withheld", ⟨2, [400, 205, 580, 218], "Line 25d — Federal income tax withheld"⟩),
    ("estimated tax", ⟨2, [400, 222, 580, 235], "Line 26 — Estimated tax payments"⟩),
    ("earned income credit", ⟨2, [400, 235, 580, 248], "Line 27 — Earned income credit (EIC)"⟩),
    ("eic", ⟨2, [400, 235, 580, 248], "Line 27 — Earned income credit (EIC)"⟩),
    ("refund", ⟨2, [400, 295, 580, 308], "Line 34 — Refund amount"⟩),
    ("amount you owe", ⟨2, [400, 340, 580, 353], "Line 37 — Amount you owe"⟩),
    ("signature", ⟨2, [32, 395, 350, 430], "Your signature"⟩),
    ("routing number", ⟨2, [180, 308, 310, 321], "Line 35b — Routing number"⟩),
    ("account number", ⟨2, [350, 308, 530, 321], "Line 35d — Account number"⟩),
    ("bank account", ⟨2, [180, 295, 530, 321], "Lines 35b-35d — Direct deposit info"⟩),
    ("direct deposit", ⟨2, [180, 295, 530, 321], "Lines 35b-35d — Direct deposit info"⟩),
    ("occupation", ⟨2, [32, 430, 200, 443], "Your occupation"⟩) ]

/-- Packaging a template-map hit, as each return site of
`find_field_location` does (`method` is always `"template_map"`). -/
def mkLoc (f : FieldInfo) : FieldLoc :=
  { page := f.page, bbox := f.bbox, label := f.label, method := "template_map" }

/-- Strategy 1 of `find_field_location`: exact key lookup
(`if target in FORM_1040_FIELDS`).  `target` is the already
lower-cased/stripped query, as a character list. -/
def exactKeyMatch (target : List Char) : Option FieldLoc :=
  (FORM_1040_FIELDS.find? fun kv => kv.1.toList == target).map fun kv => mkLoc kv.2

/-- Strategy 2: first entry whose key contains the target or is contained in
it (`if target in key or key in target`). -/
def keySubstringMatch (target : List Char) : Option FieldLoc :=
  (FORM_1040_FIELDS.find? fun kv =>
    occursIn target kv.1.toList || occursIn kv.1.toList target).map fun kv => mkLoc kv.2

/-- Strategy 3: first entry whose lower-cased display label contains the
target (`if target in field["label"].lower()`). -/
def labelSubstringMatch (target : List Char) : Option FieldLoc :=
  (FORM_1040_FIELDS.find? fun kv =>
    occursIn target (pyLower kv.2.label.toList)).map fun kv => mkLoc kv.2

/-- Model of `find_field_location` from `highlightExtractor.py`.  The `supabase` and
`document_id` parameters of the source are never read on any path, so they
are dropped here; `page_hint` is likewise unused by the source.
`target = field_label.lower().strip()`. -/
def find_field_location (field_label : String) : Option FieldLoc :=
  let target := pyStripChars (pyLower field_label.toList)
  match exactKeyMatch target with
  | some loc => some loc
  | none =>
    match keySubstringMatch target with
    | some loc => some loc
    | none => labelSubstringMatch target

/-! ## Embedder retry (`src/backend/rag/embedder.py`)

Both `embed_texts` and `embed_query` carry
`@retry(stop=stop_after_attempt(3), wait=wait_exponential(min=1, max=10))`
from `tenacity`.  The decorator passes no `retry=` predicate, so the default
of tenacity applies: every `Exception` triggers a retry, whatever its kind.
`wait_exponential(multiplier=1, exp_base=2, min=1, max=10)` sleeps
`max(min, min(2 ^ attemptNumber, max))` after the failed attempt numbered
`attemptNumber` (1-based), and once `stop_after_attempt` is reached the last
exception is propagated wrapped in a `RetryError` (the tenacity default
`reraise=False`). -/

/-- An exception raised by one embedding call.  `transient` records whether
the failure is a transient service failure or a non-transient one (e.g.
malformed input); nothing in the retry policy of the source ever inspects it. -/
structure CallError where
  transient : Bool
  msg : String
deriving Repr, DecidableEq

/-- Result of a tenacity-wrapped call: the value together with the number of
attempts made and the waits slept, or a `RetryError` carrying the last
exception once every allowed attempt has failed. -/
inductive RetryOutcome (V : Type) where
  | success (v : V) (attempts : Nat) (waits : List Nat)
  | retryError (last : CallError) (attempts : Nat) (waits : List Nat)
deriving Repr, DecidableEq

/-- Attempts made, for either outcome. -/
def RetryOutcome.attempts : RetryOutcome V → Nat
  | .success _ n _ => n
  | .retryError _ n _ => n

/-- Waits slept, for either outcome. -/
def RetryOutcome.waits : RetryOutcome V → List Nat
  | .success _ _ w => w
  | .retryError _ _ w => w

/-- The wait schedule `tenacity.wait_exponential(min=1, max=10)` evaluated after the failed
attempt numbered `attemptNumber`:
`max(max(0, min), min(multiplier * exp_base ** attempt_number, max))` with
`multiplier = 1` and `exp_base = 2`. -/
def waitExponential (minW maxW attemptNumber : Nat) : Nat :=
  max minW (min (2 ^ attemptNumber) maxW)

/-- The loop of `tenacity.retry`: `calls n` is what the wrapped function
does on its `n`-th invocation (1-based); `left` is the number of attempts
`stop_after_attempt` still allows (the `left = 0` entry point is never used
because the decorator always allows at least one attempt). -/
def tenacityGo (calls : Nat → Except CallError V) :
    Nat → Nat → List Nat → RetryOutcome V
  | n, 0, waits => .retryError ⟨false, ""⟩ n waits
  | n, left + 1, waits =>
    match calls n with
    | .ok v => .success v n waits
    | .error e =>
      if left = 0 then .retryError e n waits
      else tenacityGo calls (n + 1) left (waits ++ [waitExponential 1 10 n])

/-- The decorator `retry(stop=stop_after_attempt(3), wait=wait_exponential(min=1, max=10))`
as it wraps `embed_texts` and `embed_query` (the wrapped body is `calls`, one
entry per attempt). -/
def embedRetry (calls : Nat → Except CallError V) : RetryOutcome V :=
  tenacityGo calls 1 3 []

/-! ## Ingestion pipeline (`src/backend/routers/documents.py`)

The model tracks the database state of one document: its `documents` row
fields (`ingest_status`, `error_message`) and its `document_chunks` rows.
External calls made by one run (storage download, pdfplumber extraction,
text splitter, per-batch embedding) are supplied by a `RunEnv`; each
`Except.error` stands for a raised exception with `str(exc)` as payload. -/

/-- Embedding vectors are opaque payloads: no verified computation ever
looks inside one, so the float array is carried as an integer list. -/
abbrev Embedding := List Int

/-- The `ingest_status` column of the `documents` table. -/
inductive IngestStatus
  | pending
  | processing
  | ready
  | error
deriving Repr, DecidableEq

/-- One `document_chunks` row as built in step 6 of the pipeline.
`document_id` and `user_id` are fixed per document and omitted: the model is
scoped to the rows of a single document. -/
structure Row where
  chunk_index : Nat
  chunk_text : String
  embedding : Embedding
  metadata : ChunkMeta
deriving Repr, DecidableEq

/-- The slice of database state the pipeline mutates for one document. -/
structure DocDB where
  ingest_status : IngestStatus
  error_message : Option String
  chunks : List Row
deriving Repr, DecidableEq

/-- Outcomes of the external calls one pipeline run makes: `download` is the
storage fetch, `pages` the pdfplumber extraction of the downloaded bytes,
`split` the `RecursiveCharacterTextSplitter`, `embed` one
`embedder.embed_texts` batch call (as seen by the pipeline, i.e. after the
internal retries of the embedder). -/
structure RunEnv where
  download : Except String Unit
  pages : Except String (List Page)
  split : String → List String
  embed : List String → Except String (List Embedding)

/-- Recursion worker for `batchList`: `fuel` only forces structural
termination and is always at least the length of the list, so the `fuel = 0`
branch is unreachable. -/
def batchGo (bs : Nat) : Nat → List α → List (List α)
  | 0, _ => []
  | _ + 1, [] => []
  | fuel + 1, x :: xs => (x :: xs.take (bs - 1)) :: batchGo bs fuel (xs.drop (bs - 1))

/-- The batch loop `for i in range(0, len(texts), batch_size)` produces the
slices `texts[i : i + batch_size]` in order.  The pipeline only ever uses
`bs = 100` (`batch_size = 100`). -/
def batchList (bs : Nat) (l : List α) : List (List α) :=
  batchGo bs l.length l

/-- The loop body of step 5: embed each batch in order, extending
`all_embeddings`; the first failing batch call aborts the run with its
exception. -/
def embedBatches (embed : List String → Except String (List Embedding)) :
    List (List String) → Except String (List Embedding)
  | [] => .ok []
  | b :: rest =>
    match embed b with
    | .error e => .error e
    | .ok v =>
      match embedBatches embed rest with
      | .error e => .error e
      | .ok vs => .ok (v ++ vs)

/-- Modelled from the spec: the `document_chunks` table schema itself is not
under `src/` (the Supabase table is provisioned outside the backend
sources).  Spec §6 fixes its contract: "Chunk storage schema …: rows keyed
by `(documentId, chunkIndex)` …; deletable in bulk by `documentId`".  An
insert whose rows would duplicate that key therefore raises, and a failed
insert leaves the table unchanged. -/
def insertChunks (existing new : List Row) : Except String (List Row) :=
  if ((existing ++ new).map Row.chunk_index).Nodup then .ok (existing ++ new)
  else .error "duplicate key value violates unique constraint"

/-- The Python slice `str(exc)[:500]` (by characters). -/
def pySlice500 (s : String) : String :=
  ⟨s.toList.take 500⟩

/-- Steps 2–5 of `_run_ingestion_pipeline` and the row construction of step
6: download, extract, chunk (a run producing zero chunks raises
`ValueError("No text content extracted from document")`), embed in batches
of 100 concatenating results in order, then build one row per chunk pairing
`chunks[i]` with `all_embeddings[i]` (an embedding list shorter than the
chunk list would raise the Python `IndexError`). -/
def computeRows (env : RunEnv) : Except String (List Row) :=
  match env.download with
  | .error e => .error e
  | .ok _ =>
    match env.pages with
    | .error e => .error e
    | .ok pages =>
      let chunks := chunk_document env.split pages
      if chunks = [] then .error "No text content extracted from document"
      else
        match embedBatches env.embed (batchList 100 (chunks.map Chunk.text)) with
        | .error e => .error e
        | .ok all =>
          if all.length < chunks.length then .error "list index out of range"
          else
            .ok ((chunks.zip all).map fun ca =>
              { chunk_index := ca.1.index, chunk_text := ca.1.text,
                embedding := ca.2, metadata := ca.1.metadata })

/-- Model of `_run_ingestion_pipeline`: mark the document `processing`, run steps
2–6, then either mark it `ready` (insert succeeded) or catch the exception
and mark it `error` with `str(exc)[:500]`.  The function is total: no
exception escapes to the caller of the trigger.  Step 8
(`_auto_summarize_after_ingest`) only writes the chat tables and swallows
its own exceptions, so it does not affect this state and is omitted. -/
def run_ingestion_pipeline (env : RunEnv) (db : DocDB) : DocDB :=
  let dbp : DocDB := { db with ingest_status := .processing }
  match computeRows env with
  | .error e =>
    { dbp with ingest_status := .error, error_message := some (pySlice500 e) }
  | .ok rows =>
    match insertChunks dbp.chunks rows with
    | .error e =>
      { dbp with ingest_status := .error, error_message := some (pySlice500 e) }
    | .ok newChunks =>
      { dbp with ingest_status := .ready, chunks := newChunks }

/-- The fields of the `documents` row the trigger endpoints read. -/
structure DocRecord where
  ingest_status : IngestStatus
  storage_path : String
deriving Repr, DecidableEq

/-- The JSON body a trigger endpoint returns. -/
structure TriggerResponse where
  status : String
  document_id : String
deriving Repr, DecidableEq

/-- One `BackgroundTasks.add_task(_run_ingestion_pipeline, ...)` call:
`(document_id, storage_path)`. -/
abbrev PipelineTask := String × String

/-- Endpoint `POST /documents/<id>/ingest` (`ingest_document`): 404 when the
RLS-scoped lookup returns nothing; `already_processing` and no scheduled
task when the document is already `processing`; otherwise
`ingestion_started` with exactly one scheduled pipeline task.  The returned
list is what `background_tasks.add_task` accumulated. -/
def ingest_document (document_id : String) (doc : Option DocRecord) :
    Except Nat (TriggerResponse × List PipelineTask) :=
  match doc with
  | none => .error 404
  | some d =>
    if d.ingest_status = .processing then
      .ok (⟨"already_processing", document_id⟩, [])
    else
      .ok (⟨"ingestion_started", document_id⟩, [(document_id, d.storage_path)])

/-- Endpoint `POST /documents/<id>/save-pdf` (`save_edited_pdf`), restricted
to the state this model tracks: 404 when the document is unknown; otherwise
the storage object is overwritten and `file_size_bytes` updated (neither is
modelled state), every `document_chunks` row of the document is deleted, and
one re-ingestion pipeline task is scheduled. -/
def save_edited_pdf (document_id : String) (doc : Option DocRecord) (db : DocDB) :
    Except Nat (DocDB × TriggerResponse × List PipelineTask) :=
  match doc with
  | none => .error 404
  | some d =>
    .ok ({ db with chunks := [] }, ⟨"saved_and_reingesting", document_id⟩,
      [(document_id, d.storage_path)])

/-- Reachable-state invariant of the keyed chunk store: the stored chunk set
is empty, or holds a row with `chunk_index = 0` (every successful run stores
indices `0..N-1` with `N ≥ 1`). -/
def WFChunks (db : DocDB) : Prop :=
  db.chunks = [] ∨ ∃ r ∈ db.chunks, r.chunk_index = 0

/-! ## Streaming answer orchestrator (`src/backend/rag/chain.py`)

`stream_document_chat` and `stream_general_tax_question` are async
generators; each is modelled as the list of events it yields, in yield
order.  `await asyncio.sleep(...)` pacing emits nothing and is dropped. -/

/-- The closed union of event dicts the two generators yield. -/
inductive Event where
  | status (stage : String)
  | thinking (phase : String)
  | status_update (s : String)
  | plan_token (text : String)
  | highlight (loc : FieldLoc)
  | answer_token (text : String)
  | done
deriving Repr, DecidableEq

/-- The JSON object `check_for_highlight` resolves to.  That helper catches
its own exceptions and returns `{"needs_highlight": false, "field_label":
null}` on any failure, so a classification failure is just this value. -/
structure HighlightIntent where
  needs_highlight : Bool
  field_label : Option String
deriving Repr, DecidableEq

/-- The optional `highlight` yield of `stream_document_chat`: guarded by
`highlight_intent.get("needs_highlight") and
highlight_intent.get("field_label")` (Python truthiness: `None` and `""`
both fail the guard), then `find_field_location` runs inside a `try` whose
only effect on failure is to skip the yield — the pure model cannot raise,
so only the `some`/`none` split remains. -/
def highlightBlock (intent : HighlightIntent) : List Event :=
  match intent.needs_highlight, intent.field_label with
  | true, some label =>
    if label = "" then []
    else
      match find_field_location label with
      | some loc => [Event.highlight loc]
      | none => []
  | _, _ => []

/-- Model of `stream_document_chat`: the yielded event sequence.  `hasDbAndDoc` is
the truthiness of `db and document_id`; `sumTokens` / `ragTokens` are the
chunks streamed by the summarize chain / RAG chain. -/
def stream_document_chat (isSummary hasDbAndDoc : Bool) (intent : HighlightIntent)
    (sumTokens ragTokens : List String) : List Event :=
  Event.status "reading_document" ::
    (if isSummary then
      Event.status "building_chunks" :: Event.status "writing_answer" ::
        (sumTokens.map Event.answer_token ++ [Event.done])
    else
      Event.status "checking_rag_db" :: Event.status "selecting_sources" ::
        ((if hasDbAndDoc then
            Event.status "preparing_highlight" :: highlightBlock intent
          else []) ++
          (Event.status "writing_answer" ::
            (ragTokens.map Event.answer_token ++ [Event.done]))))

/-- Model of `stream_general_tax_question`: the yielded event sequence.  The plan
loop yields only truthy chunks (`if chunk:`), the answer loop yields every
chunk; note the source emits a second `thinking end` after the answer
tokens, just before `done`. -/
def stream_general_tax_question (planTokens answerTokens : List String) : List Event :=
  Event.thinking "start" ::
    ((planTokens.filter fun c => !(c = "")).map Event.plan_token ++
      (Event.thinking "end" :: Event.status_update "responding" ::
        (answerTokens.map Event.answer_token ++
          [Event.thinking "end", Event.done])))

/-- Every event satisfying `p` is emitted strictly before every event
satisfying `q`. -/
def EventsOrdered (p q : Event → Prop) (l : List Event) : Prop :=
  ∀ i j, (hi : i < l.length) → (hj : j < l.length) →
    p (l.get ⟨i, hi⟩) → q (l.get ⟨j, hj⟩) → i < j

/-- The retrieval-stage status events of the document-grounded flow (the
later `writing_answer` status reports generation, not retrieval). -/
def isRetrievalStatus : Event → Prop
  | .status s =>
    s = "reading_document" ∨ s = "checking_rag_db" ∨
    s = "selecting_sources" ∨ s = "preparing_highlight"
  | _ => False

/-- Recognizes a `highlight` event. -/
def isHighlightEvent : Event → Prop
  | .highlight _ => True
  | _ => False

/-- Recognizes an `answer_token` event. -/
def isAnswerTokenEvent : Event → Prop
  | .answer_token _ => True
  | _ => False

/-- Recognizes a `plan_token` event. -/
def isPlanTokenEvent : Event → Prop
  | .plan_token _ => True
  | _ => False

/-- Recognizes the `thinking` start event. -/
def isThinkingStart : Event → Prop
  | .thinking p => p = "start"
  | _ => False

/-- Recognizes a `status_update` event. -/
def isStatusUpdateEvent : Event → Prop
  | .status_update _ => True
  | _ => False

/-! ## Chunker lemmas -/

theorem waitExponential_one : waitExponential 1 10 1 = 2 := by decide

theorem waitExponential_two : waitExponential 1 10 2 = 4 := by decide

/-- Closed form of `embedRetry` over the first three call outcomes. -/
theorem embedRetry_eq (calls : Nat → Except CallError V) :
    embedRetry calls =
      match calls 1 with
      | .ok v => .success v 1 []
      | .error _ =>
        match calls 2 with
        | .ok v => .success v 2 [2]
        | .error _ =>
          match calls 3 with
          | .ok v => .success v 3 [2, 4]
          | .error e3 => .retryError e3 3 [2, 4] := by
  rcases h1 : calls 1 with e1 | v1 <;> rcases h2 : calls 2 with e2 | v2 <;>
    rcases h3 : calls 3 with e3 | v3 <;>
    simp [embedRetry, tenacityGo, h1, h2, h3, waitExponential_one, waitExponential_two]

/-! ## Chunker index lemmas -/

theorem map_index_chunksOfPage (i : Nat) (m : ChunkMeta) (splits : List String) :
    (splits.enum.map fun st =>
        ({ text := st.2, index := i + st.1, metadata := m } : Chunk)).map Chunk.index =
      List.range' i splits.length := by
  rw [List.map_map]
  have h : (Chunk.index ∘ fun st : Nat × String =>
      ({ text := st.2, index := i + st.1, metadata := m } : Chunk)) =
      ((i + ·) ∘ Prod.fst) := rfl
  rw [h, ← List.map_map, List.enum_map_fst, ← List.range'_eq_map_range]

theorem chunkPagesFrom_map_index (split : String → List String) (pages : List Page) :
    ∀ i : Nat, (chunkPagesFrom split pages i).map Chunk.index =
      List.range' i (chunkPagesFrom split pages i).length := by
  induction pages with
  | nil => intro i; simp [chunkPagesFrom]
  | cons p rest ih =>
    intro i
    by_cases h : pyStrip p.text = ""
    · simpa [chunkPagesFrom, h] using ih i
    · simp only [chunkPagesFrom, h, if_neg, ite_false]
      rw [List.map_append, List.length_append, List.length_map, List.enum_length,
        map_index_chunksOfPage, ih, List.range'_append_1]
      congr 1
      omega

theorem chunkPagesFrom_skips_blank (split : String → List String) (xs : List Page)
    (w : Page) (hw : pyStrip w.text = "") (ys : List Page) :
    ∀ i : Nat, chunkPagesFrom split (xs ++ w :: ys) i = chunkPagesFrom split (xs ++ ys) i := by
  induction xs with
  | nil => intro i; simp [chunkPagesFrom, hw]
  | cons p rest ih =>
    intro i
    by_cases h : pyStrip p.text = ""
    · simp [chunkPagesFrom, h, ih]
    · simp [chunkPagesFrom, h, ih]

theorem chunkPagesFrom_filter_blank (split : String → List String) (pages : List Page) :
    ∀ i : Nat, chunkPagesFrom split (pages.filter fun p => !(pyStrip p.text == "")) i =
      chunkPagesFrom split pages i := by
  induction pages with
  | nil => intro i; rfl
  | cons p rest ih =>
    intro i
    by_cases h : pyStrip p.text = ""
    · simp [chunkPagesFrom, List.filter_cons, h, ih]
    · simp [chunkPagesFrom, List.filter_cons, h, ih]

/-! ## Claim theorems: embedder retry -/

/-- Claim C2, counterexample: a call that always raises a non-transient
error (malformed input) is retried anyway — the decorator names no
retryable-error predicate — so the failure is attempted 3 times with waits
of 2 and 4 time-units, not propagated immediately on the first attempt, and
the first wait is 2 time-units, not 1. -/
theorem embedRetry_nontransient_is_retried :
    embedRetry (V := Embedding) (fun _ => .error ⟨false, "malformed input"⟩) =
        .retryError ⟨false, "malformed input"⟩ 3 [2, 4]
    ∧ (embedRetry (V := Embedding)
        (fun _ => .error ⟨false, "malformed input"⟩)).attempts ≠ 1
    ∧ (embedRetry (V := Embedding)
        (fun _ => .error ⟨false, "malformed input"⟩)).waits ≠ [] := by
  refine ⟨by decide, by decide, by decide⟩

/-- Claim C2 (amended) — both embedding operations share the decorator
`retry(stop=stop_after_attempt(3), wait=wait_exponential(min=1, max=10))`:
any failing call — transient or not — is retried up to 3 attempts total,
the first success is returned immediately, the waits between attempts are 2
then 4 time-units (`max(1, min(2 ^ attemptNumber, 10))`), and only after
all 3 attempts fail is the failure propagated, wrapped in a `RetryError`
carrying the last exception.  Non-transient failures (e.g. malformed input)
receive no special treatment. -/
theorem embedRetry_policy (calls : Nat → Except CallError V) :
    1 ≤ (embedRetry calls).attempts ∧ (embedRetry calls).attempts ≤ 3
    ∧ (match embedRetry calls with
       | .success v n w =>
           calls n = .ok v ∧ w = [2, 4].take (n - 1) ∧
           (1 < n → (calls 1).isOk = false) ∧ (2 < n → (calls 2).isOk = false)
       | .retryError e n w =>
           n = 3 ∧ w = [2, 4] ∧ calls 3 = .error e ∧
           (calls 1).isOk = false ∧ (calls 2).isOk = false) := by
  rcases h1 : calls 1 with e1 | v1 <;> rcases h2 : calls 2 with e2 | v2 <;>
    rcases h3 : calls 3 with e3 | v3 <;>
    simp [embedRetry_eq, h1, h2, h3, RetryOutcome.attempts, Except.isOk, Except.toBool]

/-! ## Pipeline lemmas -/

theorem batchGo_flatten (bs : Nat) :
    ∀ (fuel : Nat) (l : List α), l.length ≤ fuel → (batchGo bs fuel l).flatten = l := by
  intro fuel
  induction fuel with
  | zero =>
    intro l hl
    rw [List.length_eq_zero.mp (Nat.le_zero.mp hl)]
    rfl
  | succ n ih =>
    intro l hl
    match l with
    | [] => rfl
    | x :: xs =>
      simp only [batchGo, List.flatten_cons]
      rw [ih (xs.drop (bs - 1)) (by simp at hl ⊢; omega), List.cons_append,
        List.take_append_drop]

theorem batchList_flatten (bs : Nat) (l : List α) : (batchList bs l).flatten = l :=
  batchGo_flatten bs l.length l le_rfl

theorem batchGo_size_le (bs : Nat) (hbs : 1 ≤ bs) :
    ∀ (fuel : Nat) (l : List α), ∀ b ∈ batchGo bs fuel l, b.length ≤ bs := by
  intro fuel
  induction fuel with
  | zero =>
    intro l b hb
    simp [batchGo] at hb
  | succ n ih =>
    intro l b hb
    match l with
    | [] => simp [batchGo] at hb
    | x :: xs =>
      simp only [batchGo, List.mem_cons] at hb
      rcases hb with rfl | hb
      · simp only [List.length_cons]
        have := List.length_take_le (bs - 1) xs
        omega
      · exact ih (xs.drop (bs - 1)) b hb

theorem batchList_size_le (bs : Nat) (hbs : 1 ≤ bs) (l : List α) :
    ∀ b ∈ batchList bs l, b.length ≤ bs :=
  batchGo_size_le bs hbs l.length l

theorem embedBatches_pointwise (f : String → Embedding)
    (embed : List String → Except String (List Embedding))
    (hembed : ∀ b, embed b = .ok (b.map f)) (bs : List (List String)) :
    embedBatches embed bs = .ok ((bs.map (List.map f)).flatten) := by
  induction bs with
  | nil => rfl
  | cons b rest ih => simp [embedBatches, hembed, ih]

theorem zipSelfMap (g : α → β) (h : α × β → γ) (l : List α) :
    (l.zip (l.map g)).map h = l.map fun a => h (a, g a) := by
  induction l with
  | nil => rfl
  | cons x xs ih => simp [ih]

/-- What `computeRows` returns when each embedding batch call embeds its
texts pointwise by `f`: one row per chunk, pairing the own index of the chunk,
text and metadata with the embedding of that very text. -/
theorem computeRows_pointwise (f : String → Embedding) (env : RunEnv)
    (pages : List Page) (hdl : env.download = .ok ()) (hpg : env.pages = .ok pages)
    (hembed : ∀ b, env.embed b = .ok (b.map f))
    (hne : chunk_document env.split pages ≠ []) :
    computeRows env = .ok ((chunk_document env.split pages).map fun c =>
      { chunk_index := c.index, chunk_text := c.text, embedding := f c.text,
        metadata := c.metadata }) := by
  have hall : embedBatches env.embed
      (batchList 100 ((chunk_document env.split pages).map Chunk.text)) =
      .ok (((chunk_document env.split pages).map Chunk.text).map f) := by
    rw [embedBatches_pointwise f env.embed hembed]
    congr 1
    rw [← List.map_flatten, batchList_flatten]
  simp only [computeRows, hdl, hpg, if_neg hne, hall]
  rw [if_neg (by simp)]
  congr 1
  rw [List.map_map, zipSelfMap]
  rfl

/-- Whenever `computeRows` succeeds, the produced rows are nonempty and
their `chunk_index` column is exactly `0..N-1` in order. -/
theorem computeRows_ok_shape (env : RunEnv) (rows : List Row)
    (h : computeRows env = .ok rows) :
    rows ≠ [] ∧ rows.map Row.chunk_index = List.range rows.length := by
  rcases hdl : env.download with e | u
  · simp [computeRows, hdl] at h
  rcases hpg : env.pages with e | pages
  · simp [computeRows, hdl, hpg] at h
  by_cases hch : chunk_document env.split pages = []
  · simp [computeRows, hdl, hpg, hch] at h
  rcases hemb : embedBatches env.embed
      (batchList 100 ((chunk_document env.split pages).map Chunk.text)) with e | all
  · simp [computeRows, hdl, hpg, hch, hemb] at h
  by_cases hlen : all.length < (chunk_document env.split pages).length
  · simp [computeRows, hdl, hpg, hch, hemb, hlen] at h
  simp only [computeRows, hdl, hpg, if_neg hch, hemb, if_neg hlen] at h
  injection h with h
  subst h
  have hfst : ((chunk_document env.split pages).zip all).map Prod.fst =
      chunk_document env.split pages :=
    List.map_fst_zip _ _ (by omega)
  have hlenz : ((chunk_document env.split pages).zip all).length =
      (chunk_document env.split pages).length := by
    rw [List.length_zip]
    omega
  constructor
  · intro hnil
    apply hch
    have : ((chunk_document env.split pages).zip all) = [] := by
      simpa using hnil
    rw [← hfst, this]
    rfl
  · rw [List.map_map, List.length_map, hlenz]
    have hcomp : (Row.chunk_index ∘ fun ca : Chunk × Embedding =>
        ({ chunk_index := ca.1.index, chunk_text := ca.1.text,
           embedding := ca.2, metadata := ca.1.metadata } : Row)) =
        (Chunk.index ∘ Prod.fst) := rfl
    rw [hcomp, ← List.map_map, hfst, chunk_document,
      chunkPagesFrom_map_index, List.range_eq_range']

/-! ## Claim theorems: pipeline error handling and trigger -/

/-- Claim C3 — every exception raised after the document enters
`processing` (failed download, failed extraction, chunking yielding zero
chunks, a failed embedding batch, a failed chunk insert) is caught at the
pipeline boundary: `run_ingestion_pipeline` is a total function into the
database state, so nothing propagates to the caller of the asynchronous
trigger, and each failure leaves the document with `ingest_status = error`
and `str(exc)` truncated to at most 500 characters as its message. -/
theorem run_ingestion_pipeline_catches_all (env : RunEnv) (db : DocDB) :
    ((run_ingestion_pipeline env db).ingest_status = .ready ∨
      (run_ingestion_pipeline env db).ingest_status = .error)
    ∧ (∀ e, computeRows env = .error e →
        (run_ingestion_pipeline env db).ingest_status = .error ∧
        (run_ingestion_pipeline env db).error_message = some (pySlice500 e))
    ∧ (∀ rows e, computeRows env = .ok rows →
        insertChunks db.chunks rows = .error e →
        (run_ingestion_pipeline env db).ingest_status = .error ∧
        (run_ingestion_pipeline env db).error_message = some (pySlice500 e))
    ∧ (∀ pages, env.download = .ok () → env.pages = .ok pages →
        chunk_document env.split pages = [] →
        computeRows env = .error "No text content extracted from document")
    ∧ (∀ e, (pySlice500 e).length ≤ 500) := by
  refine ⟨?_, ?_, ?_, ?_, ?_⟩
  · rcases hc : computeRows env with e | rows
    · simp [run_ingestion_pipeline, hc]
    · rcases hi : insertChunks db.chunks rows with e | rows2 <;>
        simp [run_ingestion_pipeline, hc, hi]
  · intro e h
    simp [run_ingestion_pipeline, h]
  · intro rows e h hi
    simp [run_ingestion_pipeline, h, hi]
  · intro pages hdl hpg hch
    simp [computeRows, hdl, hpg, hch]
  · intro e
    show (e.toList.take 500).length ≤ 500
    exact List.length_take_le 500 e.toList

/-- Claim C3, witness: a run whose embedding batch raises a transient
service error ends with `ingest_status = error` and the truncated message
stored. -/
theorem run_ingestion_pipeline_catches_all_witness :
    (run_ingestion_pipeline
        ⟨.ok (), .ok [⟨1, "wages 50000", []⟩], fun s => [s],
          fun _ => .error "503 Service Unavailable"⟩
        ⟨.pending, none, []⟩).ingest_status = .error ∧
      (run_ingestion_pipeline
        ⟨.ok (), .ok [⟨1, "wages 50000", []⟩], fun s => [s],
          fun _ => .error "503 Service Unavailable"⟩
        ⟨.pending, none, []⟩).error_message =
        some (pySlice500 "503 Service Unavailable") :=
  (run_ingestion_pipeline_catches_all
      ⟨.ok (), .ok [⟨1, "wages 50000", []⟩], fun s => [s],
        fun _ => .error "503 Service Unavailable"⟩
      ⟨.pending, none, []⟩).2.1 "503 Service Unavailable" (by rfl)

/-- Claim C4 — triggering ingestion on a document whose `ingest_status` is
`processing` returns `{status: already_processing}` and schedules no
pipeline task; triggering it in any other status returns
`{status: ingestion_started}` and schedules exactly one task; an unknown
document yields HTTP 404.  The response is fixed before the background run
executes — it is a function of the stored document record alone and carries
only the status literal and the document id, never the ingestion result. -/
theorem ingest_document_trigger (document_id : String) (d : DocRecord) :
    (d.ingest_status = .processing →
      ingest_document document_id (some d) =
        .ok (⟨"already_processing", document_id⟩, []))
    ∧ (d.ingest_status ≠ .processing →
      ingest_document document_id (some d) =
        .ok (⟨"ingestion_started", document_id⟩, [(document_id, d.storage_path)]))
    ∧ ingest_document document_id none = .error 404 := by
  refine ⟨fun h => by simp [ingest_document, h], fun h => by simp [ingest_document, h], rfl⟩

/-- Claim C1 — re-ingestion replaces the chunk set wholesale.
`save_edited_pdf` deletes every chunk row of the document before scheduling
the pipeline run that re-enters `processing`.  Under the chunk-store key
`(documentId, chunkIndex)` (modelled from the spec: the table schema is
not under `src/`), any run that ends `ready` must have inserted into an
empty chunk set — the rows of every earlier successful run contain index 0,
as do the rows of the new run, so the keyed insert would otherwise have failed —
hence after any run that reaches `ready` the queryable chunk set is exactly
the rows computed by that run, with no chunk from an earlier run.
`WFChunks` is the store invariant (empty, or index 0 present), established
by an empty initial store and preserved by every modelled operation. -/
theorem reingestion_replaces_chunks (document_id : String) (d : DocRecord)
    (db : DocDB) (env : RunEnv) (hwf : WFChunks db) :
    (∀ db2 resp tasks,
        save_edited_pdf document_id (some d) db = .ok (db2, resp, tasks) →
        db2.chunks = [] ∧ tasks = [(document_id, d.storage_path)])
    ∧ ((run_ingestion_pipeline env db).ingest_status = .ready →
        db.chunks = [] ∧
        ∃ rows, computeRows env = .ok rows ∧
          (run_ingestion_pipeline env db).chunks = rows) := by
  constructor
  · intro db2 resp tasks h
    simp only [save_edited_pdf, Except.ok.injEq, Prod.mk.injEq] at h
    obtain ⟨h1, _, h3⟩ := h
    exact ⟨by rw [← h1], by rw [← h3]⟩
  · intro hready
    rcases hc : computeRows env with e | rows
    · simp [run_ingestion_pipeline, hc] at hready
    rcases hi : insertChunks db.chunks rows with e | newChunks
    · simp [run_ingestion_pipeline, hc, hi] at hready
    obtain ⟨hne, hidx⟩ := computeRows_ok_shape env rows hc
    have hins : ((db.chunks ++ rows).map Row.chunk_index).Nodup ∧
        newChunks = db.chunks ++ rows := by
      by_cases hd : ((db.chunks ++ rows).map Row.chunk_index).Nodup
      · rw [insertChunks, if_pos hd] at hi
        injection hi with hi
        exact ⟨hd, hi.symm⟩
      · rw [insertChunks, if_neg hd] at hi
        cases hi
    have hdb : db.chunks = [] := by
      rcases hwf with h0 | ⟨r, hr, hr0⟩
      · exact h0
      · exfalso
        have h0rows : (0 : Nat) ∈ rows.map Row.chunk_index := by
          rw [hidx]
          simp only [List.mem_range]
          exact List.length_pos.mpr hne
        have h0db : (0 : Nat) ∈ db.chunks.map Row.chunk_index :=
          List.mem_map.mpr ⟨r, hr, hr0⟩
        have hnd := hins.1
        rw [List.map_append] at hnd
        exact (List.disjoint_of_nodup_append hnd) h0db h0rows
    refine ⟨hdb, rows, rfl, ?_⟩
    simp only [run_ingestion_pipeline, hc, hi]
    rw [hins.2, hdb]
    rfl

/-- Claim C1, witness: on an empty chunk store, a concrete successful run
reaches `ready` and its chunk set is exactly the rows that run computed. -/
theorem reingestion_replaces_chunks_witness :
    (⟨IngestStatus.pending, none, []⟩ : DocDB).chunks = [] ∧
      ∃ rows,
        computeRows
            ⟨.ok (), .ok [⟨1, "wages 50000", []⟩], fun s => [s],
              fun b => .ok (b.map fun _ => [1])⟩ = .ok rows ∧
        (run_ingestion_pipeline
            ⟨.ok (), .ok [⟨1, "wages 50000", []⟩], fun s => [s],
              fun b => .ok (b.map fun _ => [1])⟩
            ⟨IngestStatus.pending, none, []⟩).chunks = rows :=
  (reingestion_replaces_chunks "doc-1" ⟨IngestStatus.ready, "path"⟩
      ⟨IngestStatus.pending, none, []⟩
      ⟨.ok (), .ok [⟨1, "wages 50000", []⟩], fun s => [s],
        fun b => .ok (b.map fun _ => [1])⟩
      (Or.inl rfl)).2 (by rfl)

/-- Claim C8 — one run splits the chunk texts into consecutive batches of at
most 100 in original order (their concatenation in batch order restores the
full text list), and when each batch call embeds its texts pointwise by
`f`, the stored row for position `i` pairs the index and text of chunk `i` with
the embedding of that very text. -/
theorem pipeline_batches_and_row_pairing (f : String → Embedding) (env : RunEnv)
    (pages : List Page) (hdl : env.download = .ok ()) (hpg : env.pages = .ok pages)
    (hembed : ∀ b, env.embed b = .ok (b.map f)) :
    ((batchList 100 ((chunk_document env.split pages).map Chunk.text)).flatten =
        (chunk_document env.split pages).map Chunk.text)
    ∧ (∀ b ∈ batchList 100 ((chunk_document env.split pages).map Chunk.text),
        b.length ≤ 100)
    ∧ (chunk_document env.split pages ≠ [] →
        computeRows env = .ok ((chunk_document env.split pages).map fun c =>
          { chunk_index := c.index, chunk_text := c.text, embedding := f c.text,
            metadata := c.metadata })) :=
  ⟨batchList_flatten 100 _, batchList_size_le 100 (by omega) _,
    fun hne => computeRows_pointwise f env pages hdl hpg hembed hne⟩

/-- Claim C8, witness: a concrete two-page run stores exactly one row per
chunk, each pairing the index and text of the chunk with the embedding computed
from that text. -/
theorem pipeline_batches_and_row_pairing_witness :
    computeRows
        ⟨.ok (), .ok [⟨1, "hello world", []⟩, ⟨2, "tax form", []⟩], fun s => [s],
          fun b => .ok (b.map fun s => [(s.length : Int)])⟩ =
      .ok ((chunk_document (fun s => [s])
          [⟨1, "hello world", []⟩, ⟨2, "tax form", []⟩]).map fun c =>
        { chunk_index := c.index, chunk_text := c.text,
          embedding := [(c.text.length : Int)], metadata := c.metadata }) :=
  (pipeline_batches_and_row_pairing (fun s => [(s.length : Int)])
      ⟨.ok (), .ok [⟨1, "hello world", []⟩, ⟨2, "tax form", []⟩], fun s => [s],
        fun b => .ok (b.map fun s => [(s.length : Int)])⟩
      [⟨1, "hello world", []⟩, ⟨2, "tax form", []⟩]
      rfl rfl (fun b => rfl)).2.2 (by decide)

/-- Invariant preservation: `WFChunks` holds initially (a document is created with no chunks) and is
preserved by `save_edited_pdf` (which empties the store) and by every
pipeline run, so the hypothesis of the re-ingestion theorem holds in every
reachable state. -/
theorem wfChunks_preserved (document_id : String) (d : DocRecord)
    (db : DocDB) (env : RunEnv) (hwf : WFChunks db) :
    WFChunks ⟨IngestStatus.pending, none, []⟩
    ∧ (∀ db2 resp tasks,
        save_edited_pdf document_id (some d) db = .ok (db2, resp, tasks) →
        WFChunks db2)
    ∧ WFChunks (run_ingestion_pipeline env db) := by
  refine ⟨Or.inl rfl, ?_, ?_⟩
  · intro db2 resp tasks h
    simp only [save_edited_pdf, Except.ok.injEq, Prod.mk.injEq] at h
    exact Or.inl (by rw [← h.1])
  · rcases hc : computeRows env with e | rows
    · simpa [run_ingestion_pipeline, hc, WFChunks] using hwf
    rcases hi : insertChunks db.chunks rows with e | newChunks
    · simpa [run_ingestion_pipeline, hc, hi, WFChunks] using hwf
    obtain ⟨hne, hidx⟩ := computeRows_ok_shape env rows hc
    have heq : newChunks = db.chunks ++ rows := by
      by_cases hd : ((db.chunks ++ rows).map Row.chunk_index).Nodup
      · rw [insertChunks, if_pos hd] at hi
        injection hi with hi
        exact hi.symm
      · rw [insertChunks, if_neg hd] at hi
        cases hi
    have h0rows : ∃ r ∈ rows, r.chunk_index = 0 := by
      have : (0 : Nat) ∈ rows.map Row.chunk_index := by
        rw [hidx]
        simp only [List.mem_range]
        exact List.length_pos.mpr hne
      obtain ⟨r, hr, hr0⟩ := List.mem_map.mp this
      exact ⟨r, hr, hr0⟩
    right
    simp only [run_ingestion_pipeline, hc, hi, heq]
    obtain ⟨r, hr, hr0⟩ := h0rows
    exact ⟨r, by simp [List.mem_append, hr], hr0⟩


/-! ## Claim theorems: chunker -/

/-- Claim C5 — for every ordered page list, `chunk_document` assigns chunk
`index` values exactly `0..N-1` with no gaps (sequentially across the whole
call, in page order); pages whose stripped text is empty produce zero chunks
(dropping them changes nothing); and the only degenerate behaviour is empty
input producing the empty output (the function is total, so it has no other
failure mode). -/
theorem chunk_document_sequential_indices (split : String → List String) (pages : List Page) :
    (chunk_document split pages).map Chunk.index =
        List.range (chunk_document split pages).length
    ∧ chunk_document split [] = ([] : List Chunk)
    ∧ chunk_document split pages =
        chunk_document split (pages.filter fun p => !(pyStrip p.text == "")) := by
  refine ⟨?_, rfl, ?_⟩
  · rw [chunk_document, chunkPagesFrom_map_index, List.range_eq_range']
  · rw [chunk_document, chunk_document, chunkPagesFrom_filter_blank]

/-- Claim C10 — a page whose text consists only of whitespace is skipped by
the chunker exactly like an empty page: it produces zero chunks and consumes
no chunk index, so removing it from the page list leaves the output
unchanged. -/
theorem chunk_document_whitespace_page (split : String → List String)
    (xs ys : List Page) (w : Page) (hw : pyStrip w.text = "") :
    chunk_document split (xs ++ w :: ys) = chunk_document split (xs ++ ys) := by
  rw [chunk_document, chunk_document, chunkPagesFrom_skips_blank split xs w hw ys]

/-- Claim C10, witness: a concrete whitespace-only page between two real pages
is dropped with no effect on the chunk list. -/
theorem chunk_document_whitespace_page_witness :
    chunk_document (fun s => [s])
        ([⟨1, "wages 50000", []⟩] ++ (⟨2, " \n\t ", []⟩ : Page) :: [⟨3, "tax 8000", []⟩]) =
      chunk_document (fun s => [s]) ([⟨1, "wages 50000", []⟩] ++ [⟨3, "tax 8000", []⟩]) :=
  chunk_document_whitespace_page (fun s => [s]) [⟨1, "wages 50000", []⟩]
    [⟨3, "tax 8000", []⟩] ⟨2, " \n\t ", []⟩ (by decide)

/-! ## Claim theorems: field locator -/

/-- Claim C7 — `find_field_location` tries its matching strategies in a fixed
order with the first hit winning: exact case-insensitive key match, then
substring match in either direction against a known key, then substring match
against the display label of a known key.  The query `"ssn"` resolves to the same
page/bbox/label as `"social security number"`, and a label matching nothing
in the template map yields `none` rather than an error.  The `"tax"` query
shows the exact match taking precedence: an exact key hit (Line 16) is
returned even though the key-substring scan would first reach
`"taxable income"` (Line 15). -/
theorem find_field_location_strategy_order :
    (∀ label : String,
      find_field_location label =
        ((exactKeyMatch (pyStripChars (pyLower label.toList))).orElse fun _ =>
          ((keySubstringMatch (pyStripChars (pyLower label.toList))).orElse fun _ =>
            labelSubstringMatch (pyStripChars (pyLower label.toList)))))
    ∧ find_field_location "ssn" = find_field_location "social security number"
    ∧ find_field_location "ssn" =
        some ⟨1, [430, 126, 580, 140], "Your social security number", "template_map"⟩
    ∧ find_field_location "tax" =
        some ⟨2, [400, 65, 580, 78], "Line 16 — Tax", "template_map"⟩
    ∧ keySubstringMatch (pyStripChars (pyLower "tax".toList)) =
        some ⟨1, [400, 600, 580, 613], "Line 15 — Taxable income", "template_map"⟩
    ∧ find_field_location "qwxyz gibberish" = none := by
  refine ⟨fun label => ?_, by decide, by decide, by decide, by decide, by decide⟩
  rw [find_field_location]
  cases exactKeyMatch (pyStripChars (pyLower label.toList)) <;>
    cases keySubstringMatch (pyStripChars (pyLower label.toList)) <;> rfl

/-- Claim C9 — the empty (or whitespace-only) query label is *not* rejected:
the normalized target is the empty string, the exact-key strategy misses, but
the empty string is a substring of every key, so the key-substring strategy
returns the first entry of the template map (`"first name"`). -/
theorem find_field_location_empty_label :
    find_field_location "" =
        some ⟨1, [32, 126, 282, 140], "Your first name and middle initial", "template_map"⟩
    ∧ find_field_location "   " =
        some ⟨1, [32, 126, 282, 140], "Your first name and middle initial", "template_map"⟩
    ∧ exactKeyMatch (pyStripChars (pyLower "".toList)) = none
    ∧ keySubstringMatch (pyStripChars (pyLower "".toList)) =
        some ⟨1, [32, 126, 282, 140], "Your first name and middle initial", "template_map"⟩
    ∧ (find_field_location "").isSome = true := by
  refine ⟨by decide, by decide, by decide, by decide, by decide⟩

/-! ## Stream ordering lemmas -/

theorem eventsOrdered_append (p q : Event → Prop) (l₁ l₂ : List Event)
    (h₁ : ∀ x ∈ l₁, ¬ q x) (h₂ : ∀ x ∈ l₂, ¬ p x) :
    EventsOrdered p q (l₁ ++ l₂) := by
  intro i j hi hj hp hq
  rw [List.get_eq_getElem] at hp hq
  have hi1 : i < l₁.length := by
    by_contra hge
    rw [List.getElem_append_right (Nat.le_of_not_lt hge)] at hp
    exact h₂ _ (List.getElem_mem _) hp
  have hj1 : l₁.length ≤ j := by
    by_contra hlt
    rw [List.getElem_append_left (Nat.lt_of_not_le hlt)] at hq
    exact h₁ _ (List.getElem_mem _) hq
  omega

theorem eventsOrdered_of_no_left (p q : Event → Prop) (l : List Event)
    (h : ∀ x ∈ l, ¬ p x) : EventsOrdered p q l := by
  intro i j hi hj hp _
  exact absurd hp (h _ (List.get_mem l i hi))

theorem eventsOrdered_of_no_right (p q : Event → Prop) (l : List Event)
    (h : ∀ x ∈ l, ¬ q x) : EventsOrdered p q l := by
  intro i j hi hj _ hq
  exact absurd hq (h _ (List.get_mem l j hj))

theorem highlightBlock_mem (intent : HighlightIntent) :
    ∀ x ∈ highlightBlock intent, isHighlightEvent x := by
  intro x hx
  rcases intent with ⟨needs, flabel⟩
  cases needs
  · simp [highlightBlock] at hx
  · cases flabel with
    | none => simp [highlightBlock] at hx
    | some label =>
      simp only [highlightBlock] at hx
      by_cases hl : label = ""
      · rw [if_pos hl] at hx
        simp at hx
      · rw [if_neg hl] at hx
        rcases hfind : find_field_location label with _ | loc <;> rw [hfind] at hx
        · simp at hx
        · simp only [List.mem_singleton] at hx
          subst hx
          simp [isHighlightEvent]

/-! ## Claim theorem: stream ordering -/

/-- Claim C6 — event streams are strictly ordered.  Document-grounded flow:
every retrieval-status event (`reading_document`, `checking_rag_db`,
`selecting_sources`, `preparing_highlight`) precedes any `highlight` event,
every `highlight` event precedes every `answer_token` event, and `done` is
the last event.  General flow: the `thinking` start precedes every
`plan_token`, every `plan_token` precedes the `status_update`, the
`status_update` precedes every `answer_token`, and `done` is the last
event. -/
theorem stream_event_ordering (isSummary hasDbAndDoc : Bool) (intent : HighlightIntent)
    (sumTokens ragTokens planTokens answerTokens : List String) :
    EventsOrdered isRetrievalStatus isHighlightEvent
        (stream_document_chat isSummary hasDbAndDoc intent sumTokens ragTokens)
    ∧ EventsOrdered isHighlightEvent isAnswerTokenEvent
        (stream_document_chat isSummary hasDbAndDoc intent sumTokens ragTokens)
    ∧ (stream_document_chat isSummary hasDbAndDoc intent sumTokens ragTokens).getLast? =
        some Event.done
    ∧ EventsOrdered isThinkingStart isPlanTokenEvent
        (stream_general_tax_question planTokens answerTokens)
    ∧ EventsOrdered isPlanTokenEvent isStatusUpdateEvent
        (stream_general_tax_question planTokens answerTokens)
    ∧ EventsOrdered isStatusUpdateEvent isAnswerTokenEvent
        (stream_general_tax_question planTokens answerTokens)
    ∧ (stream_general_tax_question planTokens answerTokens).getLast? = some Event.done := by
  refine ⟨?_, ?_, ?_, ?_, ?_, ?_, ?_⟩
  · -- retrieval statuses precede the highlight
    cases isSummary
    · cases hasDbAndDoc
      · apply eventsOrdered_of_no_right
        intro x hx
        simp only [stream_document_chat, Bool.false_eq_true, if_false, List.nil_append,
          List.mem_cons, List.mem_append, List.mem_map, List.not_mem_nil, or_false] at hx
        rcases hx with rfl | rfl | rfl | rfl | ⟨t, ht, rfl⟩ | rfl <;> simp [isHighlightEvent]
      · show EventsOrdered isRetrievalStatus isHighlightEvent
          ([Event.status "reading_document", Event.status "checking_rag_db",
            Event.status "selecting_sources", Event.status "preparing_highlight"] ++
            (highlightBlock intent ++
              (Event.status "writing_answer" ::
                (ragTokens.map Event.answer_token ++ [Event.done]))))
        apply eventsOrdered_append
        · intro x hx
          simp only [List.mem_cons, List.not_mem_nil, or_false] at hx
          rcases hx with rfl | rfl | rfl | rfl <;> simp [isHighlightEvent]
        · intro x hx
          simp only [List.mem_append, List.mem_cons, List.mem_map, List.not_mem_nil, or_false] at hx
          rcases hx with hx | rfl | ⟨t, ht, rfl⟩ | rfl
          · have hh := highlightBlock_mem intent x hx
            cases x <;> simp [isHighlightEvent] at hh <;> simp [isRetrievalStatus]
          · simp [isRetrievalStatus]
          · simp [isRetrievalStatus]
          · simp [isRetrievalStatus]
    · apply eventsOrdered_of_no_right
      intro x hx
      simp only [stream_document_chat, if_true, List.mem_cons, List.mem_append,
        List.mem_map, List.not_mem_nil, or_false] at hx
      rcases hx with rfl | rfl | rfl | ⟨t, ht, rfl⟩ | rfl <;> simp [isHighlightEvent]
  · -- the highlight precedes the answer tokens
    cases isSummary
    · show EventsOrdered isHighlightEvent isAnswerTokenEvent
        ((Event.status "reading_document" :: Event.status "checking_rag_db" ::
          Event.status "selecting_sources" ::
            (if hasDbAndDoc then
              Event.status "preparing_highlight" :: highlightBlock intent
            else [])) ++
          (Event.status "writing_answer" ::
            (ragTokens.map Event.answer_token ++ [Event.done])))
      apply eventsOrdered_append
      · intro x hx
        simp only [List.mem_cons] at hx
        rcases hx with rfl | rfl | rfl | hx
        · simp [isAnswerTokenEvent]
        · simp [isAnswerTokenEvent]
        · simp [isAnswerTokenEvent]
        · cases hasDbAndDoc
          · simp at hx
          · simp only [if_true, List.mem_cons] at hx
            rcases hx with rfl | hx
            · simp [isAnswerTokenEvent]
            · have hh := highlightBlock_mem intent x hx
              cases x <;> simp [isHighlightEvent] at hh <;> simp [isAnswerTokenEvent]
      · intro x hx
        simp only [List.mem_cons, List.mem_append, List.mem_map, List.not_mem_nil, or_false] at hx
        rcases hx with rfl | ⟨t, ht, rfl⟩ | rfl <;> simp [isHighlightEvent]
    · apply eventsOrdered_of_no_left
      intro x hx
      simp only [stream_document_chat, if_true, List.mem_cons, List.mem_append,
        List.mem_map, List.not_mem_nil, or_false] at hx
      rcases hx with rfl | rfl | rfl | ⟨t, ht, rfl⟩ | rfl <;> simp [isHighlightEvent]
  · -- done is the last event of the document flow
    cases isSummary
    · have hsplit : stream_document_chat false hasDbAndDoc intent sumTokens ragTokens =
          (Event.status "reading_document" :: Event.status "checking_rag_db" ::
            Event.status "selecting_sources" ::
              ((if hasDbAndDoc then
                  Event.status "preparing_highlight" :: highlightBlock intent
                else []) ++
                (Event.status "writing_answer" :: ragTokens.map Event.answer_token))) ++
            [Event.done] := by
        simp [stream_document_chat, List.append_assoc]
      rw [hsplit, List.getLast?_concat]
    · have hsplit : stream_document_chat true hasDbAndDoc intent sumTokens ragTokens =
          (Event.status "reading_document" :: Event.status "building_chunks" ::
            Event.status "writing_answer" :: sumTokens.map Event.answer_token) ++
            [Event.done] := by
        simp [stream_document_chat, List.append_assoc]
      rw [hsplit, List.getLast?_concat]
  · -- thinking start precedes the plan tokens
    show EventsOrdered isThinkingStart isPlanTokenEvent
      ([Event.thinking "start"] ++
        ((planTokens.filter fun c => !(c = "")).map Event.plan_token ++
          (Event.thinking "end" :: Event.status_update "responding" ::
            (answerTokens.map Event.answer_token ++ [Event.thinking "end", Event.done]))))
    apply eventsOrdered_append
    · intro x hx
      simp only [List.mem_singleton] at hx
      subst hx
      simp [isPlanTokenEvent]
    · intro x hx
      simp only [List.mem_append, List.mem_cons, List.mem_map, List.not_mem_nil, or_false] at hx
      rcases hx with ⟨t, ht, rfl⟩ | rfl | rfl | ⟨t, ht, rfl⟩ | rfl | rfl <;>
        simp [isThinkingStart]
  · -- plan tokens precede the status_update
    show EventsOrdered isPlanTokenEvent isStatusUpdateEvent
      ((Event.thinking "start" ::
          (planTokens.filter fun c => !(c = "")).map Event.plan_token) ++
        (Event.thinking "end" :: Event.status_update "responding" ::
          (answerTokens.map Event.answer_token ++ [Event.thinking "end", Event.done])))
    apply eventsOrdered_append
    · intro x hx
      simp only [List.mem_cons, List.mem_map, List.not_mem_nil, or_false] at hx
      rcases hx with rfl | ⟨t, ht, rfl⟩ <;> simp [isStatusUpdateEvent]
    · intro x hx
      simp only [List.mem_cons, List.mem_append, List.mem_map, List.not_mem_nil, or_false] at hx
      rcases hx with rfl | rfl | ⟨t, ht, rfl⟩ | rfl | rfl <;> simp [isPlanTokenEvent]
  · -- the status_update precedes the answer tokens
    have hsplit : stream_general_tax_question planTokens answerTokens =
        (Event.thinking "start" ::
          ((planTokens.filter fun c => !(c = "")).map Event.plan_token ++
            [Event.thinking "end", Event.status_update "responding"])) ++
          (answerTokens.map Event.answer_token ++ [Event.thinking "end", Event.done]) := by
      simp [stream_general_tax_question, List.append_assoc]
    rw [hsplit]
    apply eventsOrdered_append
    · intro x hx
      simp only [List.mem_cons, List.mem_append, List.mem_map, List.not_mem_nil, or_false] at hx
      rcases hx with rfl | ⟨t, ht, rfl⟩ | rfl | rfl <;> simp [isAnswerTokenEvent]
    · intro x hx
      simp only [List.mem_cons, List.mem_append, List.mem_map, List.not_mem_nil, or_false] at hx
      rcases hx with ⟨t, ht, rfl⟩ | rfl | rfl <;> simp [isStatusUpdateEvent]
  · -- done is the last event of the general flow
    have hsplit : stream_general_tax_question planTokens answerTokens =
        (Event.thinking "start" ::
          ((planTokens.filter fun c => !(c = "")).map Event.plan_token ++
            (Event.thinking "end" :: Event.status_update "responding" ::
              (answerTokens.map Event.answer_token ++ [Event.thinking "end"])))) ++
          [Event.done] := by
      simp [stream_general_tax_question, List.append_assoc]
    rw [hsplit, List.getLast?_concat]

end LingoTax
